import Mathlib

/-!
Shallow embedding of the password-reset flow of `SettingsPage.tsx`, the
attendance bulk update of the monitor component, and the notification
broadcast of `MayorPage.tsx`, together with proofs about them.

Timestamps are integer milliseconds, as produced by `Date.getTime()`; the
document store and the mailer are modelled by explicit arguments carrying the
values they would return and by explicit operation traces.
-/

namespace BseePortal

/-- Milliseconds in one day: the divisor `1000 * 60 * 60 * 24` used by the
`daysRemaining` effect. -/
def msPerDay : Int := 1000 * 60 * 60 * 24

/-- JavaScript `Math.ceil (a / b)` for an integer `a` and a positive integer
`b`, written with Euclidean division. -/
def jsCeilDiv (a b : Int) : Int := -((-a) / b)

/-- Embeds the `daysRemaining` effect of `SettingsPage` (lines 102-131): from
`profile.last_password_change` (`none` when null) and the wall clock `now`,
the remaining whole days of the 30-day restriction window.  The React state
is initialised to `0` and the effect does not run for a null field, so `none`
yields `0`.  The window end is `lastDate + 30` days, and the positive
difference to `now` is divided by `msPerDay` and rounded up. -/
def computeDaysRemaining (lastPasswordChange : Option Int) (now : Int) : Int :=
  match lastPasswordChange with
  | none => 0
  | some lastDate =>
    if now < lastDate + 30 * msPerDay then
      jsCeilDiv |lastDate + 30 * msPerDay - now| msPerDay
    else 0

/-- The `PasswordStep` union type of `SettingsPage`. -/
inductive PasswordStep
  | request
  | verify_token
  | set_password
deriving DecidableEq

/-- JavaScript truthiness test of an optional string: `undefined`, `null` and
the empty string are falsy. -/
def strFalsy : Option String → Bool
  | none => true
  | some s => s == ""

/-- Outcome of `handleRequestToken` (SettingsPage 141-203): either the
rate-limit guard refuses with the remaining day count and the step stays at
`request`, or the flow advances to `verify_token`, optionally surfacing the
generated code in the UI (`devTokenDisplay`). -/
inductive RequestOutcome
  | rateLimited (daysRemaining : Int)
  | advanced (devTokenDisplay : Option String) (generatedToken : String)
deriving DecidableEq

/-- Embeds `handleRequestToken` (SettingsPage 141-203).  `token` stands for
the six-digit code produced locally by the `Math.random` expression;
`profileEmail` and `authEmail` are the two places an address is looked up;
`sendSucceeds` is the outcome of the `send-email` invocation.  Any throw
inside the `try` block (missing address, failed delivery) lands in the catch,
which shows the code in the UI and still advances to `verify_token`. -/
def handleRequestToken (daysRemaining : Int) (isUsingSpecialToken : Bool)
    (token : String) (profileEmail authEmail : Option String)
    (sendSucceeds : Bool) : RequestOutcome :=
  if 0 < daysRemaining ∧ isUsingSpecialToken = false then
    .rateLimited daysRemaining
  else if strFalsy (if strFalsy profileEmail then authEmail else profileEmail) then
    .advanced (some token) token
  else if sendSucceeds then
    .advanced none token
  else
    .advanced (some token) token

/-- Outcome of `handleVerifyToken` (SettingsPage 205-235): `success` sets the
step to `set_password`; a thrown error is caught, the step stays at
`verify_token` and the message is surfaced. -/
inductive VerifyResult
  | success
  | invalidToken (msg : String)
deriving DecidableEq

/-- Kinds of document-store access a handler performs. -/
inductive StoreAccess
  | read
  | write
deriving DecidableEq

/-- JavaScript `String.prototype.trim`: drops whitespace from both ends. -/
def jsTrim (s : String) : String :=
  ⟨((s.data.dropWhile Char.isWhitespace).reverse.dropWhile Char.isWhitespace).reverse⟩

/-- The bypass-branch validity test of `handleVerifyToken` (SettingsPage
211-219): the check `currentData.special_password_token` must be truthy
(present and non-empty) and must equal the trimmed input, else the handler
throws. -/
def bypassTokenValid (storedToken : Option String) (entered : String) : Bool :=
  match storedToken with
  | none => false
  | some t => !(t == "") && (t == jsTrim entered)

/-- Embeds `handleVerifyToken` (SettingsPage 205-235).  `storedToken` is the
`special_password_token` field of the profile document as freshly read from
the store at the moment of verification (`none` when absent);
`verificationToken` is the text in the input field; `generatedToken` is the
session-local code.  The bypass branch throws when the stored field is falsy
or differs from the trimmed input; the email branch compares the trimmed
input with the session code. -/
def handleVerifyToken (isUsingSpecialToken : Bool) (storedToken : Option String)
    (verificationToken : String) (generatedToken : String) : VerifyResult :=
  if isUsingSpecialToken then
    if bypassTokenValid storedToken verificationToken then .success
    else .invalidToken "Invalid Administrative Token."
  else
    if jsTrim verificationToken == generatedToken then .success
    else .invalidToken "Invalid verification code."

/-- The store accesses `handleVerifyToken` performs: one profile read in the
bypass branch, nothing at all in the email branch. -/
def handleVerifyTokenAccesses (isUsingSpecialToken : Bool) : List StoreAccess :=
  if isUsingSpecialToken then [.read] else []

/-- Failure outcomes of `handlePasswordUpdate` (SettingsPage 237-300), named
after the error taxonomy of the spec. -/
inductive PasswordError
  | passwordMismatch
  | passwordTooWeak
  | credentialUpdateFailed
  | persistenceFailed
deriving DecidableEq

/-- The field-level content of the single `dbUpdates` object:
`last_password_change` is set to the server timestamp and, when a bypass
token is being consumed, `special_password_token` is deleted. -/
structure ProfileFieldUpdate where
  setLastPasswordChange : Bool
  deleteSpecialToken : Bool
deriving DecidableEq

/-- External calls `handlePasswordUpdate` issues, in order. -/
inductive PwOp
  | authUpdatePassword (newPassword : String)
  | profileUpdate (u : ProfileFieldUpdate)
deriving DecidableEq

/-- Whether a `PwOp` is a profile-document write. -/
def isProfileWrite : PwOp → Bool
  | .profileUpdate _ => true
  | .authUpdatePassword _ => false

/-- Result of `handlePasswordUpdate`: surfaced error (if any), the step the
session is left in, and the trace of external calls issued. -/
structure PwResult where
  error : Option PasswordError
  step : PasswordStep
  ops : List PwOp
deriving DecidableEq

/-- Embeds `handlePasswordUpdate` (SettingsPage 237-300): local validation
first (mismatch, then length), then the credential update, then one profile
`update` call carrying both field changes; a throw keeps the step at
`set_password`, success resets the form to `request`. -/
def handlePasswordUpdate (newPassword confirmPassword : String)
    (isUsingSpecialToken : Bool) (authSucceeds dbSucceeds : Bool) : PwResult :=
  if newPassword ≠ confirmPassword then
    ⟨some .passwordMismatch, .set_password, []⟩
  else if newPassword.length < 6 then
    ⟨some .passwordTooWeak, .set_password, []⟩
  else if authSucceeds = false then
    ⟨some .credentialUpdateFailed, .set_password, [.authUpdatePassword newPassword]⟩
  else if dbSucceeds then
    ⟨none, .request,
      [.authUpdatePassword newPassword, .profileUpdate ⟨true, isUsingSpecialToken⟩]⟩
  else
    ⟨some .persistenceFailed, .set_password,
      [.authUpdatePassword newPassword, .profileUpdate ⟨true, isUsingSpecialToken⟩]⟩

/-- The security-relevant fields of a profile document. -/
structure Profile where
  last_password_change : Option Int
  special_password_token : Option String
deriving DecidableEq

/-- Applying one `ProfileFieldUpdate` to a profile document: a single
document-store `update` whose field changes take effect together. -/
def applyProfileFieldUpdate (u : ProfileFieldUpdate) (now : Int) (p : Profile) : Profile :=
  { last_password_change :=
      if u.setLastPasswordChange then some now else p.last_password_change
    special_password_token :=
      if u.deleteSpecialToken then none else p.special_password_token }

/-- The attendance status union type. -/
inductive AttendanceStatus
  | Present
  | Absent
  | Late
  | Excused
deriving DecidableEq

/-- Timestamp values as they appear in attendance records: the server-side
sentinel written by the batch, or the local `Date` placeholder stored in the
optimistic copy. -/
inductive TsValue
  | server
  | localNow
deriving DecidableEq

/-- An attendance record; `id` is the document key `date ++ "_" ++ userId`. -/
structure AttendanceRecord where
  id : String
  userId : String
  date : String
  status : AttendanceStatus
  markedBy : String
  timestamp : TsValue
deriving DecidableEq

/-- The `attendanceData` object mapping user ids to records, modelled as an
association list in key order as a JavaScript object holds its keys. -/
abbrev AttMap := List (String × AttendanceRecord)

/-- JavaScript object spread update of one key: replaces the value in place
when the key exists, otherwise appends the key at the end. -/
def setKey (m : AttMap) (k : String) (v : AttendanceRecord) : AttMap :=
  if m.any (fun p => p.1 == k) then
    m.map (fun p => if p.1 == k then (k, v) else p)
  else m ++ [(k, v)]

/-- Result of `handleBulkStatusUpdate`: the visible map, the surfaced error
(if any), and each `batch.commit()` with the writes it carried, in order. -/
structure BulkResult where
  attendanceData : AttMap
  error : Option String
  commits : List (List AttendanceRecord)
deriving DecidableEq

/-- The record built for one target row of `handleBulkStatusUpdate`, keyed by
`selectedDate ++ "_" ++ profile.id` and stamped with the server timestamp
sentinel. -/
def bulkRecord (selectedDate currentUserId : String) (status : AttendanceStatus)
    (pid : String) : AttendanceRecord :=
  { id := selectedDate ++ "_" ++ pid
    userId := pid
    date := selectedDate
    status := status
    markedBy := currentUserId
    timestamp := TsValue.server }

/-- Embeds `handleBulkStatusUpdate` of the monitor component (lines 399-447):
an empty target list returns immediately; otherwise every target row is added
to ONE `db.batch()`, the optimistic map (with local timestamp placeholders)
is installed before the commit, and the pre-update snapshot `prevData` (the
value `attendanceData` held on entry) is restored when the single commit
rejects. -/
def handleBulkStatusUpdate (attendanceData : AttMap) (filteredProfiles : List String)
    (selectedDate : String) (currentUserId : String) (status : AttendanceStatus)
    (commitSucceeds : Bool) : BulkResult :=
  if filteredProfiles.length = 0 then
    ⟨attendanceData, none, []⟩
  else if commitSucceeds then
    ⟨(filteredProfiles.map (bulkRecord selectedDate currentUserId status)).foldl
        (fun m r => setKey m r.userId { r with timestamp := TsValue.localNow })
        attendanceData,
      none, [filteredProfiles.map (bulkRecord selectedDate currentUserId status)]⟩
  else
    ⟨attendanceData, some "Failed to update all records. Please try again.",
      [filteredProfiles.map (bulkRecord selectedDate currentUserId status)]⟩

/-- Splits an array into consecutive slices of `size` elements (MayorPage
37-43).  The JavaScript loop does not terminate for `size = 0`; the embedding
returns `[]` for that out-of-contract argument. -/
def chunkArray {α : Type} (xs : List α) (size : Nat) : List (List α) :=
  match xs with
  | [] => []
  | x :: rest =>
    if hs : size = 0 then []
    else (x :: rest).take size :: chunkArray ((x :: rest).drop size) size
termination_by xs.length
decreasing_by
  simp only [List.length_drop, List.length_cons]
  exact Nat.sub_lt (Nat.succ_pos _) (Nat.pos_of_ne_zero hs)

/-- One notification document as assembled by `executeBroadcast`. -/
structure NotificationDoc where
  title : String
  message : String
  is_read : Bool
  notification_type : String
  created_at : TsValue
  user_id : String
deriving DecidableEq

/-- Result of `executeBroadcast`: whether a success status was reported, the
count in the success message, and each `batch.commit()` with the documents it
created, in order. -/
structure BroadcastResult where
  ok : Bool
  reportedCount : Nat
  commits : List (List NotificationDoc)
deriving DecidableEq

/-- The notification document created for one recipient: the shared
`notificationData` template (decorated title, message, flags, one shared
server-timestamp sentinel) plus the `user_id` of the recipient. -/
def broadcastDoc (title message : String) (uid : String) : NotificationDoc :=
  { title := "📢 " ++ title
    message := message
    is_read := false
    notification_type := "announcement"
    created_at := TsValue.server
    user_id := uid }

/-- Embeds `executeBroadcast` (MayorPage 764-818): an empty profile snapshot
throws; otherwise one notification document is prepared per user id, written
in chunks of 450 through sequential `batch.commit()` calls; `count`
increments once per `batch.set` and is reported on success. -/
def executeBroadcast (title message : String) (userIds : List String) : BroadcastResult :=
  if userIds.length = 0 then
    ⟨false, 0, []⟩
  else
    ⟨true,
      (((chunkArray userIds 450).map fun chunk =>
          chunk.map (broadcastDoc title message)).map List.length).sum,
      (chunkArray userIds 450).map fun chunk => chunk.map (broadcastDoc title message)⟩

/-- Nine hundred distinct target user ids, used as a concrete input. -/
def targets900 : List String := (List.range 900).map (fun n => "u" ++ toString n)

/-! ### Helper lemmas -/

theorem msPerDay_pos : (0 : Int) < msPerDay := by norm_num [msPerDay]

theorem jsCeilDiv_pos {a b : Int} (ha : 0 < a) (hb : 0 < b) : 0 < jsCeilDiv a b := by
  have h := Int.ediv_neg' (a := -a) (b := b) (by omega) hb
  unfold jsCeilDiv
  omega

theorem jsCeilDiv_eq_ceil (a : Int) (b : Nat) (hb : b ≠ 0) :
    jsCeilDiv a (b : Int) = ⌈(a : ℚ) / (b : ℚ)⌉ := by
  have h1 : ((a : ℚ) / (b : ℚ)) = -(((-a : Int) : ℚ) / (b : ℚ)) := by push_cast; ring
  unfold jsCeilDiv
  rw [h1, Int.ceil_neg, Rat.floor_intCast_div_natCast]

theorem handleRequestToken_not_rateLimited_of_le (dr : Int) (hdr : dr ≤ 0)
    (token : String) (pe ae : Option String) (send : Bool) (d : Int) :
    handleRequestToken dr false token pe ae send ≠ .rateLimited d := by
  unfold handleRequestToken
  rw [if_neg (by rintro ⟨h1, -⟩; omega)]
  intro h
  repeat' split at h
  all_goals cases h

/-! ### Claim theorems -/

/-- Claim C1: with `last_password_change` equal to `now - dms` milliseconds, a
reset request without a bypass token is refused as rate limited iff `dms` is
below 30 days, and the reported remaining day count is the ceiling of
`30 - dms / 86400000` days, so fractional remaining time rounds up to whole
days; when 30 or more days have passed, or `last_password_change` is null,
the request proceeds. -/
theorem claimC1_rateLimitWindow (now dms : Int) (token : String)
    (pe ae : Option String) (send : Bool) :
    ((∃ d, handleRequestToken (computeDaysRemaining (some (now - dms)) now) false token pe ae send
        = .rateLimited d) ↔ dms < 30 * msPerDay)
    ∧ (dms < 30 * msPerDay →
        handleRequestToken (computeDaysRemaining (some (now - dms)) now) false token pe ae send
          = .rateLimited ⌈30 - (dms : ℚ) / 86400000⌉)
    ∧ (∀ d, handleRequestToken (computeDaysRemaining none now) false token pe ae send
        ≠ .rateLimited d) := by
  have hms : (0 : Int) < msPerDay := msPerDay_pos
  have hcompute : dms < 30 * msPerDay →
      computeDaysRemaining (some (now - dms)) now
        = jsCeilDiv (30 * msPerDay - dms) msPerDay := by
    intro h
    show (if now < now - dms + 30 * msPerDay then
        jsCeilDiv |now - dms + 30 * msPerDay - now| msPerDay else 0) = _
    rw [if_pos (by omega)]
    have harg : now - dms + 30 * msPerDay - now = 30 * msPerDay - dms := by ring
    rw [harg, abs_of_pos (by omega)]
  have hzero : ¬ dms < 30 * msPerDay →
      computeDaysRemaining (some (now - dms)) now = 0 := by
    intro h
    show (if now < now - dms + 30 * msPerDay then
        jsCeilDiv |now - dms + 30 * msPerDay - now| msPerDay else 0) = 0
    rw [if_neg (by omega)]
  have hrefused : ∀ h : dms < 30 * msPerDay,
      handleRequestToken (computeDaysRemaining (some (now - dms)) now) false token pe ae send
        = .rateLimited (jsCeilDiv (30 * msPerDay - dms) msPerDay) := by
    intro h
    rw [hcompute h]
    unfold handleRequestToken
    rw [if_pos ⟨jsCeilDiv_pos (by omega) hms, rfl⟩]
  refine ⟨?_, ?_, ?_⟩
  · by_cases hlt : dms < 30 * msPerDay
    · exact iff_of_true ⟨_, hrefused hlt⟩ hlt
    · refine iff_of_false ?_ hlt
      rintro ⟨d, hd⟩
      rw [hzero hlt] at hd
      exact handleRequestToken_not_rateLimited_of_le 0 le_rfl token pe ae send d hd
  · intro hlt
    rw [hrefused hlt]
    congr 1
    have hb : msPerDay = ((86400000 : Nat) : Int) := by norm_num [msPerDay]
    rw [hb, jsCeilDiv_eq_ceil _ 86400000 (by norm_num)]
    congr 1
    push_cast
    field_simp
    ring
  · intro d
    exact handleRequestToken_not_rateLimited_of_le _ (le_of_eq (by rfl)) token pe ae send d

/-- Witness for claim C1: a password changed right now (age zero) is refused
with 30 remaining days. -/
theorem claimC1_rateLimitWindow_witness :
    handleRequestToken (computeDaysRemaining (some (0 - 0)) 0) false "123456" none none true
      = .rateLimited 30 := by
  have h := (claimC1_rateLimitWindow 0 0 "123456" none none true).2.1
    (by norm_num [msPerDay])
  rw [h]
  norm_num

/-- Claim C9: when the rate-limit guard passes (no positive day count, email
flow) and the profile has an address but the mailer invocation fails, the
failure is recovered locally: the generated code is surfaced in the UI as the
dev-token display and the session still advances to the verify-token step. -/
theorem claimC9_deliveryFallback (daysRemaining : Int) (token : String)
    (pe ae : Option String) (hdr : daysRemaining ≤ 0) (he : strFalsy pe = false) :
    handleRequestToken daysRemaining false token pe ae false =
      .advanced (some token) token := by
  unfold handleRequestToken
  rw [if_neg (by rintro ⟨h1, -⟩; omega)]
  simp [he]

/-- Witness for claim C9: a concrete failed delivery that still advances with
the code on screen. -/
theorem claimC9_deliveryFallback_witness :
    handleRequestToken 0 false "123456" (some "student@example.com") none false =
      .advanced (some "123456") "123456" :=
  claimC9_deliveryFallback 0 "123456" (some "student@example.com") none
    (by norm_num) (by rfl)

/-- Claim C2 is false as stated: with the token `abc` stored on the persisted
profile, the entered value `abc ` (trailing blank) is verified successfully
although it does not equal the stored token, because the handler trims the
input before comparing. -/
theorem claimC2_counterexample :
    handleVerifyToken true (some "abc") "abc " "" = .success ∧ "abc " ≠ "abc" := by
  constructor
  · decide
  · decide

/-- Claim C2 (amended): with `usingBypassToken`, verification succeeds iff
the `special_password_token` currently stored on the persisted profile,
re-read at verification time, is present and non-empty and equals the
trimmed entered value; in particular, once the persisted token has been
changed or removed, an entry matching the old token fails. -/
theorem claimC2_bypassVerify (storedToken : Option String) (entered generated : String) :
    (handleVerifyToken true storedToken entered generated = .success ↔
      ∃ t, storedToken = some t ∧ t ≠ "" ∧ t = jsTrim entered)
    ∧ (∀ oldToken t, storedToken = some t → t ≠ oldToken → jsTrim entered = oldToken →
        handleVerifyToken true storedToken entered generated ≠ .success) := by
  have hval : bypassTokenValid storedToken entered = true ↔
      ∃ t, storedToken = some t ∧ t ≠ "" ∧ t = jsTrim entered := by
    cases storedToken with
    | none => simp [bypassTokenValid]
    | some t => simp [bypassTokenValid]
  have hiff : handleVerifyToken true storedToken entered generated = .success ↔
      ∃ t, storedToken = some t ∧ t ≠ "" ∧ t = jsTrim entered := by
    unfold handleVerifyToken
    rw [if_pos rfl]
    by_cases hv : bypassTokenValid storedToken entered = true
    · rw [if_pos hv]
      exact iff_of_true rfl (hval.mp hv)
    · rw [if_neg hv]
      exact iff_of_false (fun h => VerifyResult.noConfusion h) (fun hex => hv (hval.mpr hex))
  refine ⟨hiff, ?_⟩
  rintro oldToken t rfl hne htrim hsucc
  obtain ⟨t', ht', -, heq'⟩ := hiff.mp hsucc
  cases ht'
  exact hne (heq'.trans htrim)

/-- Witness for claim C2 (amended): a currently stored non-empty token equal
to the trimmed entry verifies. -/
theorem claimC2_bypassVerify_witness :
    handleVerifyToken true (some "XY7Z") "XY7Z" "" = .success :=
  (claimC2_bypassVerify (some "XY7Z") "XY7Z" "").1.mpr ⟨"XY7Z", rfl, by decide, by decide⟩

/-- Claim C7 is false as stated: with the session code `123456`, the entered
value `123456 ` (trailing blank) is verified successfully although it does
not equal the generated code, because the handler trims the input before
comparing. -/
theorem claimC7_counterexample :
    handleVerifyToken false none "123456 " "123456" = .success ∧ "123456 " ≠ "123456" := by
  constructor
  · decide
  · decide

/-- Claim C7 (amended): without a bypass token, verification succeeds iff the
trimmed entered value equals the code generated in this session; it performs
no store write (and no store access at all); a code from a different session
(any value other than the code of this session, entered verbatim) fails; and an
invalid entry surfaces the invalid-code error, the step staying at
`verify_token`. -/
theorem claimC7_emailVerify (storedToken : Option String) (entered generated : String) :
    (handleVerifyToken false storedToken entered generated = .success ↔
      jsTrim entered = generated)
    ∧ (∀ a ∈ handleVerifyTokenAccesses false, a ≠ .write)
    ∧ (∀ otherCode, jsTrim entered = otherCode → otherCode ≠ generated →
        handleVerifyToken false storedToken entered generated ≠ .success)
    ∧ (jsTrim entered ≠ generated →
        handleVerifyToken false storedToken entered generated
          = .invalidToken "Invalid verification code.") := by
  have hiff : handleVerifyToken false storedToken entered generated = .success ↔
      jsTrim entered = generated := by
    unfold handleVerifyToken
    rw [if_neg (by simp)]
    by_cases heq : jsTrim entered = generated
    · rw [if_pos (by simp [heq])]
      exact iff_of_true rfl heq
    · rw [if_neg (by simp [heq])]
      exact iff_of_false (fun h => VerifyResult.noConfusion h) heq
  refine ⟨hiff, ?_, ?_, ?_⟩
  · intro a ha
    simp only [handleVerifyTokenAccesses, if_neg Bool.false_ne_true] at ha
    cases ha
  · rintro otherCode rfl hne hsucc
    exact hne (hiff.mp hsucc)
  · intro hne
    unfold handleVerifyToken
    rw [if_neg (by simp), if_neg (by simp [hne])]

/-- Witness for claim C7 (amended): the code of the session itself, entered verbatim,
verifies. -/
theorem claimC7_emailVerify_witness :
    handleVerifyToken false none "654321" "654321" = .success :=
  (claimC7_emailVerify none "654321" "654321").1.mpr (by decide)

/-- Claim C4: in every execution of the password-update handler with
`usingBypassToken`, at most one profile-document write is ever issued, a
successful completion issues exactly one profile write that carries both
field changes, and applying any issued profile write to the persisted
profile sets `last_password_change` to now and removes
`special_password_token` in that one step — never two separate profile
writes where one can succeed without the other. -/
theorem claimC4_atomicConsume (np cp : String) (authOk dbOk : Bool)
    (p : Profile) (now : Int) :
    ((handlePasswordUpdate np cp true authOk dbOk).ops.filter isProfileWrite).length ≤ 1
    ∧ ((handlePasswordUpdate np cp true authOk dbOk).error = none →
        (handlePasswordUpdate np cp true authOk dbOk).ops.filter isProfileWrite
          = [.profileUpdate ⟨true, true⟩])
    ∧ (∀ u, PwOp.profileUpdate u ∈ (handlePasswordUpdate np cp true authOk dbOk).ops →
        applyProfileFieldUpdate u now p
          = { last_password_change := some now, special_password_token := none }) := by
  unfold handlePasswordUpdate
  split
  · exact ⟨by simp, by simp, fun u hu => by simp at hu⟩
  · split
    · exact ⟨by simp, by simp, fun u hu => by simp at hu⟩
    · split
      · refine ⟨by simp [isProfileWrite], by simp, fun u hu => ?_⟩
        simp only [List.mem_singleton] at hu
        cases hu
      · split
        · refine ⟨by simp [isProfileWrite], ?_, fun u hu => ?_⟩
          · intro _
            simp [isProfileWrite]
          · simp only [List.mem_cons, List.mem_singleton, List.not_mem_nil, or_false] at hu
            rcases hu with hu | hu
            · cases hu
            · cases hu
              rfl
        · refine ⟨by simp [isProfileWrite], by simp, fun u hu => ?_⟩
          simp only [List.mem_cons, List.mem_singleton, List.not_mem_nil, or_false] at hu
          rcases hu with hu | hu
          · cases hu
          · cases hu
            rfl

/-- Witness for claim C4: a concrete successful completion issues exactly the
single combined profile write, and that write consumes the token while
stamping the change time. -/
theorem claimC4_atomicConsume_witness :
    ((handlePasswordUpdate "hunter42" "hunter42" true true true).ops.filter isProfileWrite
      = [.profileUpdate ⟨true, true⟩])
    ∧ applyProfileFieldUpdate ⟨true, true⟩ 1700000000000
        ⟨none, some "XY7Z"⟩ = ⟨some 1700000000000, none⟩ := by
  refine ⟨(claimC4_atomicConsume "hunter42" "hunter42" true true ⟨none, some "XY7Z"⟩
    1700000000000).2.1 (by decide), ?_⟩
  exact (claimC4_atomicConsume "hunter42" "hunter42" true true ⟨none, some "XY7Z"⟩
    1700000000000).2.2 ⟨true, true⟩ (by decide)

/-- Claim C6: a set-password submission with mismatching passwords is
rejected with the mismatch error before anything else happens — no external
call at all, hence no credential update and no profile write, the session
staying in the set-password step — and this check comes first; a matching
but short password (under 6) is likewise rejected locally with the
too-weak error. -/
theorem claimC6_localValidation (np cp : String) (bypass authOk dbOk : Bool) :
    (np ≠ cp → handlePasswordUpdate np cp bypass authOk dbOk
      = ⟨some .passwordMismatch, .set_password, []⟩)
    ∧ (np = cp → np.length < 6 → handlePasswordUpdate np cp bypass authOk dbOk
      = ⟨some .passwordTooWeak, .set_password, []⟩) := by
  constructor
  · intro hne
    unfold handlePasswordUpdate
    rw [if_pos hne]
  · intro heq hlen
    unfold handlePasswordUpdate
    rw [if_neg (by simp [heq]), if_pos hlen]

/-- Witness for claim C6: concrete rejections for a mismatched pair (where
the second password is also short, showing the mismatch check fires first)
and for a short matching password. -/
theorem claimC6_localValidation_witness :
    handlePasswordUpdate "abcdef" "abc" true true true
      = ⟨some .passwordMismatch, .set_password, []⟩
    ∧ handlePasswordUpdate "abc" "abc" true true true
      = ⟨some .passwordTooWeak, .set_password, []⟩ :=
  ⟨(claimC6_localValidation "abcdef" "abc" true true true).1 (by decide),
   (claimC6_localValidation "abc" "abc" true true true).2 (by decide) (by decide)⟩

theorem chunkArray_nil {α : Type} (s : Nat) : chunkArray ([] : List α) s = [] := by
  simp [chunkArray]

theorem chunkArray_eq_cons {α : Type} (xs : List α) (s : Nat) (hx : xs ≠ [])
    (hs : s ≠ 0) : chunkArray xs s = xs.take s :: chunkArray (xs.drop s) s := by
  cases xs with
  | nil => exact absurd rfl hx
  | cons x rest => rw [chunkArray, dif_neg hs]

theorem chunkArray_eq_nil_iff {α : Type} (xs : List α) (s : Nat) (hs : s ≠ 0) :
    chunkArray xs s = [] ↔ xs = [] := by
  cases xs with
  | nil => simp [chunkArray]
  | cons x rest =>
    rw [chunkArray_eq_cons _ _ (by simp) hs]
    simp

theorem chunkArray_join {α : Type} (xs : List α) (s : Nat) (hs : s ≠ 0) :
    (chunkArray xs s).flatten = xs := by
  cases xs with
  | nil => simp [chunkArray]
  | cons x rest =>
    rw [chunkArray_eq_cons _ _ (by simp) hs, List.flatten_cons,
      chunkArray_join ((x :: rest).drop s) s hs, List.take_append_drop]
termination_by xs.length
decreasing_by
  simp only [List.length_drop, List.length_cons]
  exact Nat.sub_lt (Nat.succ_pos _) (Nat.pos_of_ne_zero hs)

theorem chunkArray_length_le {α : Type} (xs : List α) (s : Nat) (hs : s ≠ 0) :
    ∀ c ∈ chunkArray xs s, c.length ≤ s := by
  cases xs with
  | nil => simp [chunkArray]
  | cons x rest =>
    intro c hc
    rw [chunkArray_eq_cons _ _ (by simp) hs, List.mem_cons] at hc
    rcases hc with rfl | hc
    · rw [List.length_take]
      exact min_le_left _ _
    · exact chunkArray_length_le ((x :: rest).drop s) s hs c hc
termination_by xs.length
decreasing_by
  simp only [List.length_drop, List.length_cons]
  exact Nat.sub_lt (Nat.succ_pos _) (Nat.pos_of_ne_zero hs)

theorem chunkArray_dropLast_length {α : Type} (xs : List α) (s : Nat) (hs : s ≠ 0) :
    ∀ c ∈ (chunkArray xs s).dropLast, c.length = s := by
  cases xs with
  | nil => simp [chunkArray]
  | cons x rest =>
    rw [chunkArray_eq_cons _ _ (by simp) hs]
    cases hrec : chunkArray ((x :: rest).drop s) s with
    | nil => simp
    | cons c2 cs =>
      intro c hc
      rw [List.dropLast_cons₂, List.mem_cons] at hc
      rcases hc with rfl | hc
      · have hdrop : (x :: rest).drop s ≠ [] := by
          intro h0
          rw [h0, chunkArray_nil] at hrec
          cases hrec
        have hlen : s < (x :: rest).length := by
          by_contra hle
          push_neg at hle
          exact hdrop (List.drop_eq_nil_of_le hle)
        rw [List.length_take]
        omega
      · rw [← hrec] at hc
        exact chunkArray_dropLast_length ((x :: rest).drop s) s hs c hc
termination_by xs.length
decreasing_by
  simp only [List.length_drop, List.length_cons]
  exact Nat.sub_lt (Nat.succ_pos _) (Nat.pos_of_ne_zero hs)

theorem chunkArray_length_900 {α : Type} (xs : List α) (h : xs.length = 900) :
    (chunkArray xs 450).length = 2 := by
  have h1 : xs ≠ [] := by
    intro h0
    rw [h0] at h
    cases h
  rw [chunkArray_eq_cons xs 450 h1 (by norm_num)]
  have h2 : (xs.drop 450).length = 450 := by simp [h]
  have h3 : xs.drop 450 ≠ [] := by
    intro h0
    rw [h0] at h2
    cases h2
  rw [chunkArray_eq_cons _ 450 h3 (by norm_num)]
  have h4 : (xs.drop 450).drop 450 = [] := by
    apply List.eq_nil_of_length_eq_zero
    simp [h]
  rw [h4, chunkArray_nil]
  rfl

/-- Claim C10: for a positive chunk size, `chunkArray` partitions its input:
the concatenation of the chunks is the original array, every chunk has at
most `s` elements, every chunk except possibly the last has exactly `s`
elements, and the result is empty iff the input is. -/
theorem claimC10_chunkProperties {α : Type} (xs : List α) (s : Nat) (hs : 0 < s) :
    (chunkArray xs s).flatten = xs
    ∧ (∀ c ∈ chunkArray xs s, c.length ≤ s)
    ∧ (∀ c ∈ (chunkArray xs s).dropLast, c.length = s)
    ∧ (chunkArray xs s = [] ↔ xs = []) :=
  ⟨chunkArray_join xs s hs.ne', chunkArray_length_le xs s hs.ne',
   chunkArray_dropLast_length xs s hs.ne', chunkArray_eq_nil_iff xs s hs.ne'⟩

/-- Witness for claim C10: a five-element array at chunk size two
concatenates back, and an empty array yields no chunks. -/
theorem claimC10_chunkProperties_witness :
    (chunkArray [1, 2, 3, 4, 5] 2).flatten = [1, 2, 3, 4, 5]
    ∧ (chunkArray ([] : List Nat) 3 = [] ↔ ([] : List Nat) = []) :=
  ⟨(claimC10_chunkProperties [1, 2, 3, 4, 5] 2 (by norm_num)).1,
   (claimC10_chunkProperties ([] : List Nat) 3 (by norm_num)).2.2.2⟩

theorem handleBulkStatusUpdate_commits (m : AttMap) (targets : List String)
    (d uid : String) (st : AttendanceStatus) (ok : Bool) (h : targets.length ≠ 0) :
    (handleBulkStatusUpdate m targets d uid st ok).commits
      = [targets.map (bulkRecord d uid st)] := by
  unfold handleBulkStatusUpdate
  rw [if_neg h]
  cases ok with
  | true => rw [if_pos rfl]
  | false => rw [if_neg (by simp)]

theorem executeBroadcast_commits (title msg : String) (userIds : List String)
    (h : userIds.length ≠ 0) :
    (executeBroadcast title msg userIds).commits
      = (chunkArray userIds 450).map fun chunk => chunk.map (broadcastDoc title msg) := by
  unfold executeBroadcast
  rw [if_neg h]

theorem executeBroadcast_count (title msg : String) (userIds : List String)
    (h : userIds.length ≠ 0) :
    (executeBroadcast title msg userIds).reportedCount
      = (((chunkArray userIds 450).map fun chunk =>
          chunk.map (broadcastDoc title msg)).map List.length).sum := by
  unfold executeBroadcast
  rw [if_neg h]

/-- Claim C3 is false as stated for the bulk attendance update: over the 900
concrete target rows of `targets900` it performs exactly ONE batch commit
carrying all 900 writes, not 2 sequential commits of at most 450. -/
theorem claimC3_counterexample :
    targets900.length = 900
    ∧ (handleBulkStatusUpdate [] targets900 "2024-06-01" "mayor1"
        AttendanceStatus.Present true).commits.map List.length = [900]
    ∧ (handleBulkStatusUpdate [] targets900 "2024-06-01" "mayor1"
        AttendanceStatus.Present true).commits.length ≠ 2 := by
  have hlen : targets900.length = 900 := by simp [targets900]
  have hc := handleBulkStatusUpdate_commits [] targets900 "2024-06-01" "mayor1"
    AttendanceStatus.Present true (by rw [hlen]; norm_num)
  refine ⟨hlen, ?_, ?_⟩
  · rw [hc]
    simp [hlen]
  · rw [hc]
    norm_num

/-- Claim C3 (amended): the bulk attendance status update commits all N
target writes as one single batch (its commit trace is one batch of length
N); the chunking at 450 applies to the notification broadcast, whose batches
never exceed 450 writes and which performs exactly 2 sequential commits for
900 recipients. -/
theorem claimC3_chunkedCommits (m : AttMap) (targets : List String) (d uid : String)
    (st : AttendanceStatus) (ok : Bool) (title msg : String) (userIds : List String) :
    (targets ≠ [] → (handleBulkStatusUpdate m targets d uid st ok).commits.map List.length
        = [targets.length])
    ∧ (∀ c ∈ (executeBroadcast title msg userIds).commits, c.length ≤ 450)
    ∧ (userIds.length = 900 → (executeBroadcast title msg userIds).commits.length = 2) := by
  refine ⟨?_, ?_, ?_⟩
  · intro h
    rw [handleBulkStatusUpdate_commits m targets d uid st ok
      (fun hl => h (List.eq_nil_of_length_eq_zero hl))]
    simp
  · intro c hc
    by_cases h0 : userIds.length = 0
    · unfold executeBroadcast at hc
      rw [if_pos h0] at hc
      cases hc
    · rw [executeBroadcast_commits title msg userIds h0] at hc
      obtain ⟨chunk, hchunk, rfl⟩ := List.mem_map.mp hc
      rw [List.length_map]
      exact chunkArray_length_le userIds 450 (by norm_num) chunk hchunk
  · intro h900
    rw [executeBroadcast_commits title msg userIds (by omega), List.length_map]
    exact chunkArray_length_900 userIds h900

/-- Witness for claim C3 (amended): one target row yields one batch of one
write for attendance, and the 900-user broadcast commits exactly twice. -/
theorem claimC3_chunkedCommits_witness :
    (handleBulkStatusUpdate [] ["s1"] "2024-06-01" "m1"
        AttendanceStatus.Present true).commits.map List.length = [1]
    ∧ (executeBroadcast "t" "m" targets900).commits.length = 2 :=
  ⟨(claimC3_chunkedCommits [] ["s1"] "2024-06-01" "m1" AttendanceStatus.Present true
      "t" "m" targets900).1 (by decide),
   (claimC3_chunkedCommits [] ["s1"] "2024-06-01" "m1" AttendanceStatus.Present true
      "t" "m" targets900).2.2 (by simp [targets900])⟩

/-- Claim C5: when the batch commit of a bulk attendance update fails, the
visible attendance map is restored exactly to the pre-update snapshot and an
error is surfaced; no error is reported unless the commit succeeded. -/
theorem claimC5_rollbackOnFailure (m : AttMap) (targets : List String)
    (d uid : String) (st : AttendanceStatus) (h : targets ≠ []) :
    ((handleBulkStatusUpdate m targets d uid st false).attendanceData = m
      ∧ (handleBulkStatusUpdate m targets d uid st false).error.isSome = true)
    ∧ (∀ ok, (handleBulkStatusUpdate m targets d uid st ok).error = none → ok = true) := by
  have h0 : targets.length ≠ 0 := fun hl => h (List.eq_nil_of_length_eq_zero hl)
  constructor
  · unfold handleBulkStatusUpdate
    rw [if_neg h0, if_neg (by simp)]
    exact ⟨rfl, rfl⟩
  · intro ok hok
    cases ok with
    | true => rfl
    | false =>
      unfold handleBulkStatusUpdate at hok
      rw [if_neg h0, if_neg (by simp)] at hok
      cases hok

/-- Witness for claim C5: a concrete failed commit leaves the (empty)
snapshot untouched and surfaces an error. -/
theorem claimC5_rollbackOnFailure_witness :
    (handleBulkStatusUpdate [] ["s1", "s2"] "2024-06-01" "m1"
        AttendanceStatus.Absent false).attendanceData = []
    ∧ (handleBulkStatusUpdate [] ["s1", "s2"] "2024-06-01" "m1"
        AttendanceStatus.Absent false).error.isSome = true :=
  (claimC5_rollbackOnFailure [] ["s1", "s2"] "2024-06-01" "m1"
    AttendanceStatus.Absent (by decide)).1

/-- Claim C8: broadcasting to a non-empty list of pairwise-distinct
registered user ids creates exactly one notification document per user — the
recipient ids of the created documents are exactly the user ids, pairwise
distinct — every document carries the same title, message and created-at
timestamp value, and the reported sent count equals the number of users. -/
theorem claimC8_broadcastFanout (title msg : String) (userIds : List String)
    (hne : userIds ≠ []) (hnd : userIds.Nodup) :
    ((executeBroadcast title msg userIds).commits.flatten.map NotificationDoc.user_id
        = userIds)
    ∧ (executeBroadcast title msg userIds).commits.flatten.length = userIds.length
    ∧ ((executeBroadcast title msg userIds).commits.flatten.map
        NotificationDoc.user_id).Nodup
    ∧ (∀ doc ∈ (executeBroadcast title msg userIds).commits.flatten,
        doc.title = "📢 " ++ title ∧ doc.message = msg ∧ doc.created_at = TsValue.server)
    ∧ (executeBroadcast title msg userIds).reportedCount = userIds.length := by
  have h0 : userIds.length ≠ 0 := fun hl => hne (List.eq_nil_of_length_eq_zero hl)
  have hflat : (executeBroadcast title msg userIds).commits.flatten
      = userIds.map (broadcastDoc title msg) := by
    rw [executeBroadcast_commits title msg userIds h0, ← List.map_flatten,
      chunkArray_join userIds 450 (by norm_num)]
  have hids : (executeBroadcast title msg userIds).commits.flatten.map
      NotificationDoc.user_id = userIds := by
    rw [hflat, List.map_map,
      show NotificationDoc.user_id ∘ broadcastDoc title msg = id from rfl, List.map_id]
  refine ⟨hids, ?_, ?_, ?_, ?_⟩
  · rw [hflat, List.length_map]
  · rw [hids]
    exact hnd
  · intro doc hdoc
    rw [hflat] at hdoc
    obtain ⟨uid, -, rfl⟩ := List.mem_map.mp hdoc
    exact ⟨rfl, rfl, rfl⟩
  · rw [executeBroadcast_count title msg userIds h0, List.map_map,
      show (List.length ∘ fun chunk => chunk.map (broadcastDoc title msg)) = List.length
        from funext fun c => List.length_map c _,
      ← List.length_flatten, chunkArray_join userIds 450 (by norm_num)]

/-- Witness for claim C8: a concrete three-user broadcast fans out to
exactly those three recipients and reports three. -/
theorem claimC8_broadcastFanout_witness :
    ((executeBroadcast "Exam" "Room change" ["a", "b", "c"]).commits.flatten.map
        NotificationDoc.user_id = ["a", "b", "c"])
    ∧ (executeBroadcast "Exam" "Room change" ["a", "b", "c"]).reportedCount = 3 :=
  ⟨(claimC8_broadcastFanout "Exam" "Room change" ["a", "b", "c"]
      (by decide) (by decide)).1,
   (claimC8_broadcastFanout "Exam" "Room change" ["a", "b", "c"]
      (by decide) (by decide)).2.2.2.2⟩

end BseePortal
